import Mathlib

/-!
# Verification of the expense-pipeline core of `_project_gsheet.py`

Shallow embedding of the data-transformation functions of the repository:
`clean_data`, `filter_by_month`, `filter_data_by_categorical_value` and
`calculate_total_expenses_per_column`.

Modelling conventions:
* A table is a `List (List String)`; row 0 is the header.
* Python exceptions (`IndexError` from `data[0]`, `ValueError` from
  `header.index(...)`) become an `Except PErr` result.
* Python floats are modelled as exact rationals `ℚ`; the amounts handled by
  the pipeline are small decimals, for which float arithmetic is exact.
* `float(...)` string parsing is modelled on its base-10 decimal fragment
  (optional sign, digits with one optional point, optional exponent); the
  `inf`/`nan` words, underscore digit grouping and non-ASCII digits that
  CPython additionally accepts are not modelled, and `str.strip` uses the
  ASCII whitespace set.
* `calculate_total_expenses_per_column` assigns into its argument
  (`row[amount_idx] = ...`), so every pipeline function is translated in
  state-passing style: it returns the Python return value *and* the final
  value of the `data` argument.  The three functions that contain no
  assignment into `data` leave that second component equal to the input.
-/

namespace FinGS

/-- ASCII whitespace, the characters removed by Python `str.strip()`. -/
def isPySpace (c : Char) : Bool :=
  c == ' ' || c == '\t' || c == '\n' || c == '\r' || c == '\x0b' || c == '\x0c'

/-- Python `s.strip()` on a character list: drop whitespace at both ends. -/
def pyStrip (l : List Char) : List Char :=
  ((l.dropWhile isPySpace).reverse.dropWhile isPySpace).reverse

/-- Python `s.strip()` on strings. -/
def pyStripStr (s : String) : String :=
  String.mk (pyStrip s.toList)

/-- Python `s.replace(" ", "")`: removes every space character. -/
def removeSpaces (l : List Char) : List Char :=
  l.filter (fun c => c != ' ')

/-- Python `s.replace("R$", "")`: removes the occurrences of the two-character
pattern `R$`, scanning left to right without overlap. -/
def removeRS : List Char → List Char
  | 'R' :: '$' :: rest => removeRS rest
  | c :: rest => c :: removeRS rest
  | [] => []

/-- Python `s.replace(".", "")`: removes every `.` character. -/
def removeDots (l : List Char) : List Char :=
  l.filter (fun c => c != '.')

/-- Python `s.replace(",", ".")`: turns every comma into a point. -/
def commaToDot (l : List Char) : List Char :=
  l.map (fun c => if c = ',' then '.' else c)

/-- The amount-cell cleanup of `calculate_total_expenses_per_column`
(line 135): `.replace(" ", "").replace("R$", "").replace(".", "")
.replace(",", ".").strip()`. -/
def cleanAmount (s : String) : String :=
  String.mk (pyStrip (commaToDot (removeDots (removeRS (removeSpaces s.toList)))))

/-- Value of a digit run, most significant first. -/
def digsVal (l : List Char) : ℕ :=
  l.foldl (fun a c => 10 * a + (c.toNat - 48)) 0

/-- A nonempty run of ASCII digits. -/
def allDigits (l : List Char) : Bool :=
  !l.isEmpty && l.all Char.isDigit

/-- Mantissa of a Python float literal: digits with at most one point and at
least one digit overall (`"50"`, `"1."`, `".5"`; not `"."` or `""`). -/
def parseMantissa? (l : List Char) : Option ℚ :=
  match l.span (fun c => c != '.') with
  | (ip, []) =>
    if allDigits ip then some (digsVal ip) else none
  | (ip, _ :: fp) =>
    if fp.all (fun c => c != '.') && ip.all Char.isDigit && fp.all Char.isDigit
        && !(ip.isEmpty && fp.isEmpty) then
      some ((digsVal ip : ℚ) + (digsVal fp : ℚ) / (10 : ℚ) ^ fp.length)
    else none

/-- Exponent part after `e`/`E`: optional sign then a nonempty digit run. -/
def parseExp? (l : List Char) : Option ℤ :=
  match l with
  | '+' :: ds => if allDigits ds then some (digsVal ds) else none
  | '-' :: ds => if allDigits ds then some (-(digsVal ds : ℤ)) else none
  | ds => if allDigits ds then some (digsVal ds) else none

/-- Scale a value by a signed power of ten. -/
def applyExp (v : ℚ) (e : ℤ) : ℚ :=
  if 0 ≤ e then v * (10 : ℚ) ^ e.toNat else v / (10 : ℚ) ^ (-e).toNat

/-- Unsigned part of a Python float literal: mantissa with optional
`e`/`E` exponent. -/
def parseUnsigned? (l : List Char) : Option ℚ :=
  match l.span (fun c => c != 'e' && c != 'E') with
  | (mant, []) => parseMantissa? mant
  | (mant, _ :: ex) =>
    match parseMantissa? mant, parseExp? ex with
    | some m, some e => some (applyExp m e)
    | _, _ => none

/-- Python `float(s)` on its base-10 decimal fragment: `some v` when the
string parses, `none` where CPython raises `ValueError`. -/
def pyFloat? (s : String) : Option ℚ :=
  match s.toList with
  | '+' :: rest => parseUnsigned? rest
  | '-' :: rest => (parseUnsigned? rest).map Neg.neg
  | l => parseUnsigned? l

/-- The amount-parsing step of `calculate_total_expenses_per_column`
(lines 133-138): clean the cell, `float` it, and fall back to `0.0` when the
conversion raises `ValueError`. -/
def parseAmount (s : String) : ℚ :=
  (pyFloat? (cleanAmount s)).getD 0

/-- Python slice `s[a:b]` (clipping, for `0 ≤ a ≤ b`). -/
def pySliceStr (a b : ℕ) (s : String) : String :=
  String.mk ((s.toList.take b).drop a)

/-- Python `l.index(x)`: index of the first occurrence, `none` where CPython
raises `ValueError`. -/
def pyIndex? (l : List String) (x : String) : Option ℕ :=
  match l with
  | [] => none
  | a :: rest => if a = x then some 0 else (pyIndex? rest x).map (· + 1)

/-- A spreadsheet table: row 0 is the header. -/
abbrev Table := List (List String)

/-- The exceptions the pipeline can raise: `indexError` is `data[0]` on an
empty list, `missingColumn c` is the `ValueError` of `header.index(c)`, and
`invalidTable` is the error name the spec proposes for header-less input. -/
inductive PErr where
  | indexError : PErr
  | missingColumn : String → PErr
  | invalidTable : PErr
deriving DecidableEq, Repr

/-- Row test of `clean_data` line 49: `row and any(str(cell).strip() for cell
in row)` — the row is nonempty and some cell strips to a truthy (nonempty)
string. -/
def keepRow (row : List String) : Bool :=
  !row.isEmpty && row.any (fun cell => pyStripStr cell != "")

/-- Cell substitution of `clean_data` line 51: `cell if cell else "N/A"` —
a falsy (empty) cell becomes the sentinel. -/
def fillCell (cell : String) : String :=
  if cell = "" then "N/A" else cell

/-- `clean_data` (lines 36-53): drop rows that are empty or all-blank, then
replace falsy cells with `"N/A"`.  Second component: final state of `data`
(unchanged — the function only builds new lists). -/
def clean_data (data : Table) : Table × Table :=
  ((data.filter keepRow).map (fun row => row.map fillCell), data)

/-- `filter_by_month` (lines 55-77): keep the header plus the data rows whose
`Data` cell has slice `[3:5]` equal to `month` and slice `[6:10]` equal to
`"2025"`.  Second component: final state of `data` (unchanged). -/
def filter_by_month (data : Table) (month : String) : Except PErr (Table × Table) :=
  match data with
  | [] => .error .indexError
  | header :: rows =>
    match pyIndex? header "Data" with
    | none => .error (.missingColumn "Data")
    | some date_idx =>
      .ok (header :: rows.filter (fun row =>
        decide (date_idx < row.length)
          && pySliceStr 3 5 (row.getD date_idx "") == month
          && pySliceStr 6 10 (row.getD date_idx "") == "2025"),
        header :: rows)

/-- `filter_data_by_categorical_value` (lines 150-163): keep the header plus
the data rows whose `Categoria` cell equals `categorical_value`.  Second
component: final state of `data` (unchanged). -/
def filter_data_by_categorical_value (data : Table) (categorical_value : String) :
    Except PErr (Table × Table) :=
  match data with
  | [] => .error .indexError
  | header :: rows =>
    match pyIndex? header "Categoria" with
    | none => .error (.missingColumn "Categoria")
    | some category_idx =>
      .ok (header :: rows.filter (fun row =>
        decide (category_idx < row.length)
          && row.getD category_idx "" == categorical_value),
        header :: rows)

/-- One `dict` update of the aggregation loop (lines 140-143): add `v` to the
running total of `k`, inserting `k` at the end on first sight.  The list
keeps the insertion order of a Python `dict`. -/
def updateAlist (al : List (String × ℚ)) (k : String) (v : ℚ) : List (String × ℚ) :=
  match al with
  | [] => [(k, v)]
  | (k', v') :: rest =>
    if k' = k then (k', v' + v) :: rest else (k', v') :: updateAlist rest k v

/-- The row loop of `calculate_total_expenses_per_column` (lines 130-143):
rows long enough are processed — their amount cell is overwritten with the
cleaned string (the assignment happens before `float` can raise) and the
parsed amount is added to their group's total; short rows are skipped.
Returns the final state of the rows and the accumulated totals. -/
def calcLoop : List (List String) → ℕ → ℕ → List (String × ℚ) →
    List (List String) × List (String × ℚ)
  | [], _, _, al => ([], al)
  | row :: rest, gIdx, aIdx, al =>
    if max gIdx aIdx < row.length then
      let cleaned := cleanAmount (row.getD aIdx "")
      let next := calcLoop rest gIdx aIdx
        (updateAlist al (row.getD gIdx "") ((pyFloat? cleaned).getD 0))
      (row.set aIdx cleaned :: next.1, next.2)
    else
      let next := calcLoop rest gIdx aIdx al
      (row :: next.1, next.2)

/-- Stable insertion into a descending-by-total list: an element inserted
later goes after the elements with a greater-or-equal total. -/
def insertDesc (x : String × ℚ) : List (String × ℚ) → List (String × ℚ)
  | [] => [x]
  | y :: ys => if y.2 ≤ x.2 then x :: y :: ys else y :: insertDesc x ys

/-- `sorted(items, key=value, reverse=True)` (line 146): Python's sort is
stable, modelled by a stable insertion sort, descending by total. -/
def sortDesc : List (String × ℚ) → List (String × ℚ)
  | [] => []
  | x :: xs => insertDesc x (sortDesc xs)

/-- `calculate_total_expenses_per_column` (lines 111-148).  First component:
the returned ordered mapping (totals per group, descending).  Second
component: the final state of `data`, whose processed rows had their amount
cell overwritten in place. -/
def calculate_total_expenses_per_column (data : Table) (column_name : String) :
    Except PErr (List (String × ℚ) × Table) :=
  match data with
  | [] => .error .indexError
  | header :: rows =>
    match pyIndex? header column_name with
    | none => .error (.missingColumn column_name)
    | some column_name_idx =>
      match pyIndex? header "Valor_total" with
      | none => .error (.missingColumn "Valor_total")
      | some amount_idx =>
        let res := calcLoop rows column_name_idx amount_idx []
        .ok (sortDesc res.2, header :: res.1)

/-- First-encounter order of a list of keys: each key keeps the position of
its first occurrence. -/
def firstOccurs (l : List String) : List String :=
  l.foldl (fun acc k => if k ∈ acc then acc else acc ++ [k]) []

/-- Modelled from the spec's words for claim C8 only (the code under `src/`
is `clean_data` above): \"clean should fail fast with a clear `InvalidTable`
error if no header row is present\"; a table with no header row is the empty
table. -/
def clean_data_claimC8 (data : Table) : Except PErr Table :=
  if data.isEmpty then .error .invalidTable else .ok (clean_data data).1

/-! ## Library lemmas about the embedded operations -/

theorem pyIndex?_eq_none {l : List String} {x : String} :
    pyIndex? l x = none ↔ x ∉ l := by
  induction l with
  | nil => simp [pyIndex?]
  | cons a rest ih =>
    by_cases h : a = x
    · subst h
      simp [pyIndex?]
    · simp [pyIndex?, h, ih, Ne.symm h]

theorem pyIndex?_isSome_of_mem {l : List String} {x : String} (h : x ∈ l) :
    ∃ i, pyIndex? l x = some i := by
  induction l with
  | nil => simp at h
  | cons a rest ih =>
    by_cases ha : a = x
    · exact ⟨0, by simp [pyIndex?, ha]⟩
    · have hx : x ∈ rest := by
        rcases List.mem_cons.mp h with h1 | h1
        · exact absurd h1.symm ha
        · exact h1
      obtain ⟨i, hi⟩ := ih hx
      exact ⟨i + 1, by simp [pyIndex?, ha, hi]⟩

theorem pyStripStr_empty : pyStripStr "" = "" := rfl

theorem fillCell_fillCell (c : String) : fillCell (fillCell c) = fillCell c := by
  by_cases hc : c = ""
  · subst hc; rfl
  · simp [fillCell, hc]

theorem map_fillCell_idem (row : List String) :
    (row.map fillCell).map fillCell = row.map fillCell := by
  rw [List.map_map]
  exact List.map_congr_left (fun c _ => fillCell_fillCell c)

theorem keepRow_map_fillCell {row : List String} (h : keepRow row = true) :
    keepRow (row.map fillCell) = true := by
  simp only [keepRow, Bool.and_eq_true, Bool.not_eq_true', List.any_eq_true,
    bne_iff_ne, ne_eq] at h ⊢
  obtain ⟨h1, c, hc, hp⟩ := h
  refine ⟨?_, fillCell c, List.mem_map_of_mem _ hc, ?_⟩
  · cases row
    · simp at h1
    · simp
  · have hcne : c ≠ "" := by
      intro he
      subst he
      exact hp pyStripStr_empty
    simpa [fillCell, hcne] using hp

theorem length_mk (l : List Char) : (String.mk l).length = l.length := rfl

theorem mem_insertDesc {z x : String × ℚ} {l : List (String × ℚ)} :
    z ∈ insertDesc x l ↔ z = x ∨ z ∈ l := by
  induction l with
  | nil => simp [insertDesc]
  | cons y ys ih =>
    by_cases h : y.2 ≤ x.2
    · simp [insertDesc, h]
    · simp only [insertDesc, if_neg h, List.mem_cons, ih]
      tauto

theorem pairwise_insertDesc {x : String × ℚ} {l : List (String × ℚ)}
    (h : l.Pairwise (fun a b => b.2 ≤ a.2)) :
    (insertDesc x l).Pairwise (fun a b => b.2 ≤ a.2) := by
  induction l with
  | nil => simp [insertDesc]
  | cons y ys ih =>
    rw [List.pairwise_cons] at h
    by_cases hle : y.2 ≤ x.2
    · simp only [insertDesc, if_pos hle]
      refine List.pairwise_cons.mpr ⟨?_, List.pairwise_cons.mpr h⟩
      intro z hz
      rcases List.mem_cons.mp hz with rfl | hz'
      · exact hle
      · exact le_trans (h.1 z hz') hle
    · simp only [insertDesc, if_neg hle]
      refine List.pairwise_cons.mpr ⟨?_, ih h.2⟩
      intro z hz
      rcases mem_insertDesc.mp hz with rfl | hz'
      · exact le_of_not_le hle
      · exact h.1 z hz'

theorem sortDesc_pairwise (l : List (String × ℚ)) :
    (sortDesc l).Pairwise (fun a b => b.2 ≤ a.2) := by
  induction l with
  | nil => simp [sortDesc]
  | cons x xs ih => exact pairwise_insertDesc ih

theorem filter_insertDesc (x : String × ℚ) (l : List (String × ℚ)) (v : ℚ) :
    (insertDesc x l).filter (fun e => decide (e.2 = v)) =
      (x :: l).filter (fun e => decide (e.2 = v)) := by
  induction l with
  | nil => rfl
  | cons y ys ih =>
    by_cases hle : y.2 ≤ x.2
    · simp only [insertDesc, if_pos hle]
    · simp only [insertDesc, if_neg hle]
      have hxy : x.2 < y.2 := lt_of_not_le hle
      by_cases hx : x.2 = v
      · have hy : ¬ y.2 = v := by
          rw [← hx]
          exact (ne_of_gt hxy)
        simp only [List.filter_cons, ih]
        simp [hx, hy]
      · by_cases hy : y.2 = v
        · simp only [List.filter_cons, ih]
          simp [hx, hy]
        · simp only [List.filter_cons, ih]
          simp [hx, hy]

theorem filter_sortDesc (l : List (String × ℚ)) (v : ℚ) :
    (sortDesc l).filter (fun e => decide (e.2 = v)) =
      l.filter (fun e => decide (e.2 = v)) := by
  induction l with
  | nil => rfl
  | cons x xs ih =>
    show (insertDesc x (sortDesc xs)).filter _ = _
    rw [filter_insertDesc]
    simp only [List.filter_cons, ih]

theorem sum_insertDesc (x : String × ℚ) (l : List (String × ℚ)) :
    ((insertDesc x l).map Prod.snd).sum = x.2 + (l.map Prod.snd).sum := by
  induction l with
  | nil => simp [insertDesc]
  | cons y ys ih =>
    by_cases hle : y.2 ≤ x.2
    · simp [insertDesc, hle]
    · simp only [insertDesc, if_neg hle, List.map_cons, List.sum_cons, ih]
      ring

theorem sum_sortDesc (l : List (String × ℚ)) :
    ((sortDesc l).map Prod.snd).sum = (l.map Prod.snd).sum := by
  induction l with
  | nil => rfl
  | cons x xs ih =>
    show ((insertDesc x (sortDesc xs)).map Prod.snd).sum = _
    rw [sum_insertDesc, ih]
    simp

theorem updateAlist_sum (al : List (String × ℚ)) (k : String) (v : ℚ) :
    ((updateAlist al k v).map Prod.snd).sum = (al.map Prod.snd).sum + v := by
  induction al with
  | nil => simp [updateAlist]
  | cons e rest ih =>
    obtain ⟨k', v'⟩ := e
    by_cases h : k' = k
    · simp only [updateAlist, if_pos h, List.map_cons, List.sum_cons]
      ring
    · simp only [updateAlist, if_neg h, List.map_cons, List.sum_cons, ih]
      ring

theorem updateAlist_keys (al : List (String × ℚ)) (k : String) (v : ℚ) :
    (updateAlist al k v).map Prod.fst =
      if k ∈ al.map Prod.fst then al.map Prod.fst else al.map Prod.fst ++ [k] := by
  induction al with
  | nil => simp [updateAlist]
  | cons e rest ih =>
    obtain ⟨k', v'⟩ := e
    by_cases h : k' = k
    · simp [updateAlist, h]
    · simp only [updateAlist, if_neg h, List.map_cons, ih]
      by_cases hk : k ∈ rest.map Prod.fst
      · simp [List.mem_cons, hk, Ne.symm h]
      · simp [List.mem_cons, hk, Ne.symm h]

theorem calcLoop_fst (rows : List (List String)) (gIdx aIdx : ℕ) :
    ∀ al, (calcLoop rows gIdx aIdx al).1 =
      rows.map (fun r => if max gIdx aIdx < r.length
        then r.set aIdx (cleanAmount (r.getD aIdx "")) else r) := by
  induction rows with
  | nil => intro al; rfl
  | cons row rest ih =>
    intro al
    simp only [calcLoop, List.map_cons]
    by_cases h : max gIdx aIdx < row.length
    · rw [if_pos h, if_pos h]
      exact congrArg _ (ih _)
    · rw [if_neg h, if_neg h]
      exact congrArg _ (ih _)

theorem calcLoop_snd_sum (rows : List (List String)) (gIdx aIdx : ℕ) :
    ∀ al, ((calcLoop rows gIdx aIdx al).2.map Prod.snd).sum =
      (al.map Prod.snd).sum +
      ((rows.filter (fun r => decide (max gIdx aIdx < r.length))).map
        (fun r => parseAmount (r.getD aIdx ""))).sum := by
  induction rows with
  | nil => intro al; simp [calcLoop]
  | cons row rest ih =>
    intro al
    simp only [calcLoop, List.filter_cons]
    by_cases h : max gIdx aIdx < row.length
    · rw [if_pos h, if_pos (decide_eq_true h)]
      show ((calcLoop rest gIdx aIdx _).2.map Prod.snd).sum = _
      rw [ih, updateAlist_sum]
      simp only [List.map_cons, List.sum_cons, parseAmount]
      ring
    · rw [if_neg h, if_neg (fun hc => h (of_decide_eq_true hc))]
      show ((calcLoop rest gIdx aIdx al).2.map Prod.snd).sum = _
      rw [ih]

theorem calcLoop_keys (rows : List (List String)) (gIdx aIdx : ℕ) :
    ∀ al, (calcLoop rows gIdx aIdx al).2.map Prod.fst =
      ((rows.filter (fun r => decide (max gIdx aIdx < r.length))).map
        (fun r => r.getD gIdx "")).foldl
        (fun acc k => if k ∈ acc then acc else acc ++ [k]) (al.map Prod.fst) := by
  induction rows with
  | nil => intro al; rfl
  | cons row rest ih =>
    intro al
    simp only [calcLoop, List.filter_cons]
    by_cases h : max gIdx aIdx < row.length
    · rw [if_pos h, if_pos (decide_eq_true h)]
      show (calcLoop rest gIdx aIdx _).2.map Prod.fst = _
      rw [ih, updateAlist_keys]
      simp only [List.map_cons, List.foldl_cons]
    · rw [if_neg h, if_neg (fun hc => h (of_decide_eq_true hc))]
      show (calcLoop rest gIdx aIdx al).2.map Prod.fst = _
      rw [ih]

/-! ## C6: `clean` is idempotent -/

/-- C6: for every table `t`, `clean(clean(t)) = clean(t)` — re-cleaning
removes no further rows and changes no further cells. -/
theorem C6_clean_data_idempotent :
    ∀ data : Table, (clean_data (clean_data data).1).1 = (clean_data data).1 := by
  intro data
  show (((data.filter keepRow).map (fun row => row.map fillCell)).filter keepRow).map
        (fun row => row.map fillCell)
      = (data.filter keepRow).map (fun row => row.map fillCell)
  have hfilter : ((data.filter keepRow).map (fun row => row.map fillCell)).filter keepRow
      = (data.filter keepRow).map (fun row => row.map fillCell) := by
    apply List.filter_eq_self.mpr
    intro a ha
    obtain ⟨row, hrow, rfl⟩ := List.mem_map.mp ha
    exact keepRow_map_fillCell (List.of_mem_filter hrow)
  rw [hfilter, List.map_map]
  exact List.map_congr_left (fun row _ => map_fillCell_idem row)

/-! ## C7: missing required columns are fatal -/

/-- C7: when a required header column is absent — `"Data"` for the month
filter, the requested group column or `"Valor_total"` for the aggregator —
the operation fails with a `missingColumn` error naming that column, and no
filtered table or aggregate mapping is returned. -/
theorem C7_missing_column_is_fatal :
    (∀ (header : List String) (rows : List (List String)) (month : String),
        "Data" ∉ header →
        filter_by_month (header :: rows) month = .error (.missingColumn "Data"))
    ∧ (∀ (header : List String) (rows : List (List String)) (column_name : String),
        column_name ∉ header →
        calculate_total_expenses_per_column (header :: rows) column_name =
          .error (.missingColumn column_name))
    ∧ (∀ (header : List String) (rows : List (List String)) (column_name : String),
        column_name ∈ header → "Valor_total" ∉ header →
        calculate_total_expenses_per_column (header :: rows) column_name =
          .error (.missingColumn "Valor_total")) := by
  refine ⟨?_, ?_, ?_⟩
  · intro header rows month h
    have hn : pyIndex? header "Data" = none := pyIndex?_eq_none.mpr h
    simp [filter_by_month, hn]
  · intro header rows column_name h
    have hn : pyIndex? header column_name = none := pyIndex?_eq_none.mpr h
    simp [calculate_total_expenses_per_column, hn]
  · intro header rows column_name hmem h
    obtain ⟨i, hi⟩ := pyIndex?_isSome_of_mem hmem
    have hn : pyIndex? header "Valor_total" = none := pyIndex?_eq_none.mpr h
    simp [calculate_total_expenses_per_column, hi, hn]

/-- Witness for C7 at concrete tables: a header `["X"]` lacking `"Data"`, a
header lacking the group column, and a header lacking `"Valor_total"`. -/
theorem C7_missing_column_is_fatal_witness :
    filter_by_month [["X"], ["05/09/2025"]] "09" = .error (.missingColumn "Data")
    ∧ calculate_total_expenses_per_column [["X"], ["r", "v"]] "Categoria" =
        .error (.missingColumn "Categoria")
    ∧ calculate_total_expenses_per_column [["Categoria"], ["Lazer"]] "Categoria" =
        .error (.missingColumn "Valor_total") :=
  ⟨C7_missing_column_is_fatal.1 ["X"] [["05/09/2025"]] "09" (by decide),
   C7_missing_column_is_fatal.2.1 ["X"] [["r", "v"]] "Categoria" (by decide),
   C7_missing_column_is_fatal.2.2 ["Categoria"] [["Lazer"]] "Categoria"
     (by decide) (by decide)⟩

/-! ## C3: characterization of the month filter -/

/-- C3: for every table whose header contains `"Data"` and every
two-character month, `filter_by_month` returns the header followed by
exactly the data rows (in order) that have a cell at the date index whose
slice `[3:5]` equals the month and whose slice `[6:10]` equals `"2025"`;
consequently the keep-predicate is `false` on every row whose date cell has
fewer than 10 characters, with no error raised. -/
theorem C3_filter_by_month_characterization
    (header : List String) (rows : List (List String)) (month : String)
    (date_idx : ℕ) (hda : pyIndex? header "Data" = some date_idx)
    (_hm : month.length = 2) :
    filter_by_month (header :: rows) month =
      .ok (header :: rows.filter (fun row =>
        decide (date_idx < row.length)
          && pySliceStr 3 5 (row.getD date_idx "") == month
          && pySliceStr 6 10 (row.getD date_idx "") == "2025"),
        header :: rows)
    ∧ ∀ row : List String, (row.getD date_idx "").length < 10 →
        (decide (date_idx < row.length)
          && pySliceStr 3 5 (row.getD date_idx "") == month
          && pySliceStr 6 10 (row.getD date_idx "") == "2025") = false := by
  constructor
  · simp [filter_by_month, hda]
  · intro row hlen
    have h2025 : (pySliceStr 6 10 (row.getD date_idx "") == "2025") = false := by
      apply beq_eq_false_iff_ne.mpr
      intro heq
      have hl : (((row.getD date_idx "").toList.take 10).drop 6).length =
          ("2025" : String).length := by
        rw [← length_mk]
        exact congrArg String.length heq
      rw [List.length_drop, List.length_take] at hl
      have htl : (row.getD date_idx "").toList.length = (row.getD date_idx "").length := rfl
      have h4 : ("2025" : String).length = 4 := rfl
      omega
    rw [h2025]
    simp

/-- Witness for C3 at a concrete table: month `"09"`, a matching row, a
too-short date cell, and a wrong-year row. -/
theorem C3_filter_by_month_characterization_witness :
    filter_by_month [["Data"], ["05/09/2025"], ["bad"], ["05/09/2024"]] "09" =
      .ok ([["Data"], ["05/09/2025"]],
           [["Data"], ["05/09/2025"], ["bad"], ["05/09/2024"]]) := by
  have h := C3_filter_by_month_characterization ["Data"]
    [["05/09/2025"], ["bad"], ["05/09/2024"]] "09" 0 rfl rfl
  rw [h.1]
  rfl

/-! ## C4: the aggregate totals sum to the parsed amounts of the long rows -/

/-- C4: whenever the group column and `"Valor_total"` are both found, the
aggregator succeeds and the sum of all totals in its output equals the sum
of the parsed amounts over exactly the data rows longer than both column
indices; shorter rows contribute nothing and raise no error. -/
theorem C4_aggregate_sum_conservation
    (header : List String) (rows : List (List String)) (column_name : String)
    (gIdx aIdx : ℕ)
    (hg : pyIndex? header column_name = some gIdx)
    (ha : pyIndex? header "Valor_total" = some aIdx) :
    ∃ m t, calculate_total_expenses_per_column (header :: rows) column_name = .ok (m, t)
      ∧ (m.map Prod.snd).sum =
        ((rows.filter (fun r => decide (max gIdx aIdx < r.length))).map
          (fun r => parseAmount (r.getD aIdx ""))).sum := by
  refine ⟨sortDesc (calcLoop rows gIdx aIdx []).2,
    [header] ++ (calcLoop rows gIdx aIdx []).1, ?_, ?_⟩
  · simp [calculate_total_expenses_per_column, hg, ha]
  · rw [sum_sortDesc, calcLoop_snd_sum rows gIdx aIdx []]
    simp

/-- Witness for C4 at a concrete one-row table. -/
theorem C4_aggregate_sum_conservation_witness :
    ∃ m t, calculate_total_expenses_per_column
        [["Categoria", "Valor_total"], ["Lazer", "R$ 50,00"]] "Categoria" = .ok (m, t)
      ∧ (m.map Prod.snd).sum =
        (([["Lazer", "R$ 50,00"]].filter (fun r => decide (max 0 1 < r.length))).map
          (fun r => parseAmount (r.getD 1 ""))).sum :=
  C4_aggregate_sum_conservation ["Categoria", "Valor_total"] [["Lazer", "R$ 50,00"]]
    "Categoria" 0 1 rfl rfl

/-! ## C5: output order — descending totals, stable on first encounter -/

/-- C5: any mapping the aggregator returns is ordered non-increasing by
total; entries with a given total keep exactly the order of the pre-sort
accumulator, whose keys are in first-encounter order of the processed data
rows — so the output order is deterministic. -/
theorem C5_aggregate_output_order
    (header : List String) (rows : List (List String)) (column_name : String)
    (gIdx aIdx : ℕ) (m : List (String × ℚ)) (t : Table)
    (hg : pyIndex? header column_name = some gIdx)
    (ha : pyIndex? header "Valor_total" = some aIdx)
    (hok : calculate_total_expenses_per_column (header :: rows) column_name = .ok (m, t)) :
    m.Pairwise (fun a b => b.2 ≤ a.2)
    ∧ (∀ v : ℚ, m.filter (fun e => decide (e.2 = v)) =
        ((calcLoop rows gIdx aIdx []).2).filter (fun e => decide (e.2 = v)))
    ∧ ((calcLoop rows gIdx aIdx []).2).map Prod.fst =
        firstOccurs ((rows.filter (fun r => decide (max gIdx aIdx < r.length))).map
          (fun r => r.getD gIdx "")) := by
  have hm : m = sortDesc (calcLoop rows gIdx aIdx []).2 := by
    simp [calculate_total_expenses_per_column, hg, ha] at hok
    exact hok.1.symm
  subst hm
  refine ⟨sortDesc_pairwise _, fun v => filter_sortDesc _ v, ?_⟩
  rw [calcLoop_keys rows gIdx aIdx []]
  rfl

/-- Witness for C5 at a concrete one-row table. -/
theorem C5_aggregate_output_order_witness :
    ([("Lazer", ((50 : ℕ) : ℚ) + ((0 : ℕ) : ℚ) / (10 : ℚ) ^ (2 : ℕ))]).Pairwise
        (fun a b => b.2 ≤ a.2)
    ∧ ((calcLoop [["Lazer", "R$ 50,00"]] 0 1 []).2).map Prod.fst =
        firstOccurs (([["Lazer", "R$ 50,00"]].filter
          (fun r => decide (max 0 1 < r.length))).map (fun r => r.getD 0 "")) :=
  ⟨(C5_aggregate_output_order ["Categoria", "Valor_total"] [["Lazer", "R$ 50,00"]]
      "Categoria" 0 1 _ _ rfl rfl rfl).1,
   (C5_aggregate_output_order ["Categoria", "Valor_total"] [["Lazer", "R$ 50,00"]]
      "Categoria" 0 1 _ _ rfl rfl rfl).2.2⟩

/-! ## C9: which stage mutates its input, and how -/

/-- C9: the cleaner and both filters leave the final state of their `data`
argument equal to the input, while the aggregator's final state overwrites
exactly the amount cell of every data row long enough to be processed with
its normalized string, leaving every other cell and every short row
unchanged. -/
theorem C9_mutation_profile :
    (∀ data : Table, (clean_data data).2 = data)
    ∧ (∀ (data : Table) (month : String) (r : Table × Table),
        filter_by_month data month = .ok r → r.2 = data)
    ∧ (∀ (data : Table) (v : String) (r : Table × Table),
        filter_data_by_categorical_value data v = .ok r → r.2 = data)
    ∧ (∀ (header : List String) (rows : List (List String)) (column_name : String)
        (gIdx aIdx : ℕ),
        pyIndex? header column_name = some gIdx →
        pyIndex? header "Valor_total" = some aIdx →
        ∃ m, calculate_total_expenses_per_column (header :: rows) column_name =
          .ok (m, header :: rows.map (fun r =>
            if max gIdx aIdx < r.length
            then r.set aIdx (cleanAmount (r.getD aIdx "")) else r))) := by
  refine ⟨fun data => rfl, ?_, ?_, ?_⟩
  · intro data month r h
    cases data with
    | nil => simp [filter_by_month] at h
    | cons header rows =>
      cases hi : pyIndex? header "Data" with
      | none =>
        simp [filter_by_month, hi] at h
      | some i =>
        simp only [filter_by_month, hi] at h
        obtain rfl := Except.ok.inj h
        rfl
  · intro data v r h
    cases data with
    | nil => simp [filter_data_by_categorical_value] at h
    | cons header rows =>
      cases hi : pyIndex? header "Categoria" with
      | none =>
        simp [filter_data_by_categorical_value, hi] at h
      | some i =>
        simp only [filter_data_by_categorical_value, hi] at h
        obtain rfl := Except.ok.inj h
        rfl
  · intro header rows column_name gIdx aIdx hg ha
    refine ⟨sortDesc (calcLoop rows gIdx aIdx []).2, ?_⟩
    simp only [calculate_total_expenses_per_column, hg, ha]
    rw [calcLoop_fst rows gIdx aIdx []]

/-- Witness for C9 at concrete tables for each of the four stages. -/
theorem C9_mutation_profile_witness :
    (clean_data [["a", ""]]).2 = [["a", ""]]
    ∧ (([["Data"]], [["Data"]]) : Table × Table).2 = [["Data"]]
    ∧ (([["Categoria"]], [["Categoria"]]) : Table × Table).2 = [["Categoria"]]
    ∧ ∃ m, calculate_total_expenses_per_column
        [["Categoria", "Valor_total"], ["Lazer", "R$ 50,00"]] "Categoria" =
          .ok (m, ["Categoria", "Valor_total"] :: [["Lazer", "R$ 50,00"]].map (fun r =>
            if max 0 1 < r.length
            then r.set 1 (cleanAmount (r.getD 1 "")) else r)) :=
  ⟨C9_mutation_profile.1 [["a", ""]],
   C9_mutation_profile.2.1 [["Data"]] "09" ([["Data"]], [["Data"]]) rfl,
   C9_mutation_profile.2.2.1 [["Categoria"]] "Lazer" ([["Categoria"]], [["Categoria"]]) rfl,
   C9_mutation_profile.2.2.2 ["Categoria", "Valor_total"] [["Lazer", "R$ 50,00"]]
     "Categoria" 0 1 rfl rfl⟩

/-! ## C10: aggregation is not idempotent over a shared table -/

/-- C10: on a table containing the amount cell `"R$ 50,00"`, the first
aggregator call rewrites that cell to `"50.00"` and totals `50`, and a
second call with identical arguments on the mutated table strips the `'.'`
and totals `5000` — two successive identical calls return different
mappings. -/
theorem C10_aggregate_not_idempotent :
    ∃ m1 t1 m2 t2,
      calculate_total_expenses_per_column
          [["Categoria", "Valor_total"], ["Lazer", "R$ 50,00"]] "Categoria" = .ok (m1, t1)
      ∧ calculate_total_expenses_per_column t1 "Categoria" = .ok (m2, t2)
      ∧ t1 = [["Categoria", "Valor_total"], ["Lazer", "50.00"]]
      ∧ m1 = [("Lazer", 50)] ∧ m2 = [("Lazer", 5000)]
      ∧ m1 ≠ m2 := by
  refine ⟨[("Lazer", ((50 : ℕ) : ℚ) + ((0 : ℕ) : ℚ) / (10 : ℚ) ^ (2 : ℕ))],
    [["Categoria", "Valor_total"], ["Lazer", "50.00"]],
    [("Lazer", ((5000 : ℕ) : ℚ))],
    [["Categoria", "Valor_total"], ["Lazer", "5000"]],
    rfl, rfl, rfl, ?_, ?_, ?_⟩
  · simp only [List.cons.injEq, Prod.mk.injEq, and_true, true_and]
    norm_num
  · simp only [List.cons.injEq, Prod.mk.injEq, and_true, true_and]
    norm_num
  · intro hcontra
    simp only [List.cons.injEq, Prod.mk.injEq, and_true, true_and] at hcontra
    have : ((50 : ℕ) : ℚ) + ((0 : ℕ) : ℚ) / (10 : ℚ) ^ (2 : ℕ) ≠ ((5000 : ℕ) : ℚ) := by
      norm_num
    exact this hcontra

/-! ## C1: the end-to-end example of the spec -/

/-- C1: on the example table, `filter_by_month` with `"09"` keeps the header
and exactly the two September rows, and aggregating that result by
`"Categoria"` yields exactly the one-entry mapping `Lazer ↦ 1250.50`. -/
theorem C1_end_to_end_example :
    filter_by_month
        [["Data", "Categoria", "Item", "Valor_total"],
         ["05/09/2025", "Lazer", "Cinema", "R$ 50,00"],
         ["06/09/2025", "Lazer", "Jogo", "R$1.200,50"],
         ["01/10/2025", "Casa", "Luz", "R$100,00"]] "09" =
      .ok ([["Data", "Categoria", "Item", "Valor_total"],
            ["05/09/2025", "Lazer", "Cinema", "R$ 50,00"],
            ["06/09/2025", "Lazer", "Jogo", "R$1.200,50"]],
           [["Data", "Categoria", "Item", "Valor_total"],
            ["05/09/2025", "Lazer", "Cinema", "R$ 50,00"],
            ["06/09/2025", "Lazer", "Jogo", "R$1.200,50"],
            ["01/10/2025", "Casa", "Luz", "R$100,00"]])
    ∧ ∃ t, calculate_total_expenses_per_column
        [["Data", "Categoria", "Item", "Valor_total"],
         ["05/09/2025", "Lazer", "Cinema", "R$ 50,00"],
         ["06/09/2025", "Lazer", "Jogo", "R$1.200,50"]] "Categoria" =
        .ok ([("Lazer", 1250.50)], t) := by
  refine ⟨rfl, ⟨[["Data", "Categoria", "Item", "Valor_total"],
      ["05/09/2025", "Lazer", "Cinema", "50.00"],
      ["06/09/2025", "Lazer", "Jogo", "1200.50"]], ?_⟩⟩
  have h : calculate_total_expenses_per_column
      [["Data", "Categoria", "Item", "Valor_total"],
       ["05/09/2025", "Lazer", "Cinema", "R$ 50,00"],
       ["06/09/2025", "Lazer", "Jogo", "R$1.200,50"]] "Categoria"
      = .ok ([("Lazer", (((50 : ℕ) : ℚ) + ((0 : ℕ) : ℚ) / (10 : ℚ) ^ (2 : ℕ))
          + (((1200 : ℕ) : ℚ) + ((50 : ℕ) : ℚ) / (10 : ℚ) ^ (2 : ℕ)))],
        [["Data", "Categoria", "Item", "Valor_total"],
         ["05/09/2025", "Lazer", "Cinema", "50.00"],
         ["06/09/2025", "Lazer", "Jogo", "1200.50"]]) := rfl
  rw [h]
  simp only [Except.ok.injEq, Prod.mk.injEq, List.cons.injEq, and_true, true_and]
  norm_num

/-! ## C2: the currency parser -/

/-- C2: `parseAmount` is total on strings and factors exactly as: remove
all spaces, remove every `"R$"`, remove all `'.'`, turn `','` into `'.'`,
strip, parse as a base-10 decimal; whenever that parse fails it returns
exactly `0`; in particular `parseAmount "R$ 1.234,56" = 1234.56` and
`parseAmount "N/A" = 0`. -/
theorem C2_parseAmount_pipeline :
    (∀ s : String, parseAmount s =
      (pyFloat? (pyStripStr (String.mk (commaToDot (removeDots
        (removeRS (removeSpaces s.toList))))))).getD 0)
    ∧ (∀ s : String, pyFloat? (cleanAmount s) = none → parseAmount s = 0)
    ∧ parseAmount "R$ 1.234,56" = 1234.56
    ∧ parseAmount "N/A" = 0 := by
  refine ⟨fun s => rfl, fun s h => by simp [parseAmount, h], ?_, rfl⟩
  have h : pyFloat? (cleanAmount "R$ 1.234,56")
      = some (((1234 : ℕ) : ℚ) + ((56 : ℕ) : ℚ) / (10 : ℚ) ^ (2 : ℕ)) := rfl
  rw [parseAmount, h, Option.getD_some]
  norm_num

/-- Witness for C2: the fallback-to-zero branch taken at `"N/A"`. -/
theorem C2_parseAmount_pipeline_witness :
    pyFloat? (cleanAmount "N/A") = none ∧ parseAmount "N/A" = 0 :=
  ⟨rfl, C2_parseAmount_pipeline.2.1 "N/A" rfl⟩

/-! ## C8: behaviour of `clean` on header-less (empty) input -/

/-- Counterexample to C8 as stated: the only table without a header row is
the empty table, and there `clean_data` returns the empty table instead of
failing with `InvalidTable` as the spec-modelled `clean_data_claimC8`
demands. -/
theorem C8_counterexample :
    clean_data_claimC8 [] = .error .invalidTable ∧ (clean_data ([] : Table)).1 = [] :=
  ⟨rfl, rfl⟩

/-- C8 amended: `clean` never fails; header-less input is not specially
handled, and the empty input table (the only header-less table) yields the
empty output table. -/
theorem C8_amended_clean_data_empty :
    (clean_data ([] : Table)).1 = ([] : Table) ∧ (clean_data ([] : Table)).2 = ([] : Table) :=
  ⟨rfl, rfl⟩

end FinGS
